import Mathlib

/-!
# Spec2Proof for krismab/shoppingtrends

A shallow embedding of the shopping-trends pipeline: the `Item` record type
and the CSV row reader from `src/main.rs`, and the graph-builder and
centrality-engine components (`mod graph`, `mod centrality`), whose source
files are not in the repository snapshot and are therefore modelled from the
specification.

Conventions of the embedding:
* Rust `usize` fields are `Nat` (no arithmetic overflows occur in the claims).
* `f64` centrality scores are modelled as `ℚ`; all the claimed score values
  (`0.0`, `degree / (N - 1)` with the division guarded) are exact.
* `petgraph::graphmap::DiGraphMap` is modelled as insertion-ordered lists of
  nodes and of directed edges with set semantics (no duplicate is ever
  appended), matching the spec's "directed-edge-set graph, not a multigraph".
* The `HashMap<String, NodeIndex>` item-to-node mapping is an insertion-ordered
  association list; the claims use it only through lookup, membership and
  entry count.
-/

/-- The record type of one CSV row, mirroring `struct Item` in `src/main.rs`
field for field.  `usize` becomes `Nat`, `bool` becomes `Bool`,
`String` stays `String`, `Vec<String>` becomes `List String`. -/
structure Item where
  customer_id : Nat
  age : Nat
  gender : Bool
  item_purchased : String
  category : String
  purchase_amount : Nat
  location : String
  size : String
  color : String
  season : String
  review_rating : Nat
  subscription_status : Bool
  shipping_type : String
  discount_applied : Bool
  promo_code_used : Bool
  previous_purchases : Nat
  payment_method : String
  preferred_payment_method : String
  frequency_of_purchases : String
  edges : List String
deriving DecidableEq, Repr

/-- Model of `str::parse::<usize>` restricted to what the claims need: a
successful parse yields `some n`, any failure yields `none`.  Rust's `usize`
parser accepts a non-empty digit string; `String.toNat?` has exactly that
success domain. -/
def parse_usize (s : String) : Option Nat :=
  s.toNat?

/-- Model of `str::parse::<bool>`: Rust's `bool: FromStr` accepts exactly
`"true"` and `"false"`. -/
def parse_bool (s : String) : Option Bool :=
  if s = "true" then some true else if s = "false" then some false else none

/-- One row's worth of the body of `read_csv` in `src/main.rs`: build an
`Item` from the 19 positional string fields of a readable CSV record,
coercing typed columns with `parse` and defaulting failures
(`unwrap_or_default` / `unwrap_or(false)`: numeric fields default to `0`,
boolean fields to `false`), and leaving `edges` empty (`Vec::new()`).
A readable row of this CSV has 19 fields; `getD i ""` is total on lists and
agrees with Rust's `record[i]` on such rows. -/
def item_from_record (r : List String) : Item where
  customer_id := (parse_usize (r.getD 0 "")).getD 0
  age := (parse_usize (r.getD 1 "")).getD 0
  gender := (parse_bool (r.getD 2 "")).getD false
  item_purchased := r.getD 3 ""
  category := r.getD 4 ""
  purchase_amount := (parse_usize (r.getD 5 "")).getD 0
  location := r.getD 6 ""
  size := r.getD 7 ""
  color := r.getD 8 ""
  season := r.getD 9 ""
  review_rating := (parse_usize (r.getD 10 "")).getD 0
  subscription_status := (parse_bool (r.getD 11 "")).getD false
  shipping_type := r.getD 12 ""
  discount_applied := (parse_bool (r.getD 13 "")).getD false
  promo_code_used := (parse_bool (r.getD 14 "")).getD false
  previous_purchases := (parse_usize (r.getD 15 "")).getD 0
  payment_method := r.getD 16 ""
  preferred_payment_method := r.getD 17 ""
  frequency_of_purchases := r.getD 18 ""
  edges := []

/-- The row-processing pipeline of `read_csv` in `src/main.rs`: each CSV
record arrives as a `Result` (here `Option (List String)`: `none` is a row
the reader failed to read), and
`filter_map(|result| result.ok().and_then(|record| Some(Item { .. })))`
drops unreadable rows and converts every readable one, so the caller sees a
plain vector of fully-defaulted `Item`s and never a per-row error. -/
def read_csv (rows : List (Option (List String))) : List Item :=
  rows.filterMap (fun res => res.map item_from_record)

/-- The graph: model of `petgraph::graphmap::DiGraphMap` as used by the
builder.  Nodes are the `NodeIndex` values (`Nat`), kept in insertion order;
edges are directed ordered pairs, kept in insertion order with set semantics. -/
structure Graph where
  nodes : List Nat
  edges : List (Nat × Nat)
deriving DecidableEq, Repr

/-- The empty graph, `DiGraphMap::new()`. -/
def Graph.empty : Graph :=
  { nodes := [], edges := [] }

/-- Add a node: a no-op when the node is already present (node sets, not
multisets). -/
def Graph.addNode (g : Graph) (v : Nat) : Graph :=
  if v ∈ g.nodes then g else { g with nodes := g.nodes ++ [v] }

/-- Insert a directed edge `a → b`: a no-op when the edge already exists,
otherwise the endpoints are added to the node set if missing (as
`DiGraphMap::add_edge` does) and the edge is appended.  Never a duplicate:
a directed-edge-set graph, not a multigraph. -/
def Graph.addEdge (g : Graph) (a b : Nat) : Graph :=
  if (a, b) ∈ g.edges then g
  else { nodes := ((g.addNode a).addNode b).nodes, edges := g.edges ++ [(a, b)] }

/-- `DiGraphMap::contains_edge`. -/
def Graph.containsEdge (g : Graph) (a b : Nat) : Bool :=
  (a, b) ∈ g.edges

/-- Degree of a node under the directed-edge-set semantics: out-degree plus
in-degree (§4.2: "in-degree + out-degree, or total incident edges"; the two
agree on the builder's graphs, which have no self-loops). -/
def Graph.degree (g : Graph) (v : Nat) : Nat :=
  (g.edges.filter (fun e => e.1 == v)).length
    + (g.edges.filter (fun e => e.2 == v)).length

/-- Modelled from the spec: the pairwise relatedness rule of §4.1 for
`graph::create_edges` (the file `src/graph.rs` is not in the snapshot).  Two
records are related when they share the same value in a designated comparison
field `f` of the record — the spec leaves the concrete field a documented
domain choice, so the embedding takes the selector `f` as a parameter — and
§4.1's edge case holds: a record whose designated field is empty relates to
no other record via that field. -/
def related (f : Item → String) (a b : Item) : Bool :=
  f a == f b && f a != ""

/-- The designated comparison field consistent with the repository's tests
(`tests::test_create_edges` expects an edge between two records sharing only
`category` and `preferred_payment_method`) and with the spec's example of "a
shared purchase/category attribute". -/
def byCategory : Item → String :=
  Item.category

/-- Modelled from the spec: step 1 of `graph::build_graph` (§4.1, the file
`src/graph.rs` is not in the snapshot), processing records in input order.
A record whose `item_purchased` is already mapped is a no-op; a new
identifier gets a fresh `NodeIndex` (the next index, `m.length`) registered
in the graph and in the identifier-to-node mapping. -/
def create_nodes_aux (items : List Item) (g : Graph) (m : List (String × Nat)) :
    Graph × List (String × Nat) :=
  match items with
  | [] => (g, m)
  | it :: rest =>
    match m.lookup it.item_purchased with
    | some _ => create_nodes_aux rest g m
    | none =>
        create_nodes_aux rest (g.addNode m.length)
          (m ++ [(it.item_purchased, m.length)])

/-- Modelled from the spec: `graph::create_nodes` (§4.1) — node creation over
the whole record sequence, starting from an empty mapping. -/
def create_nodes (g : Graph) (items : List Item) : Graph × List (String × Nat) :=
  create_nodes_aux items g []

/-- Modelled from the spec: the inner loop of `graph::create_edges` — relate
one record `it` against every later record, inserting the directed edge from
`it`'s node to the later record's node when the two records are related,
with §4.1's explicit guard against self-loops (when both records map to the
same node, nothing is inserted). -/
def add_edges_from (f : Item → String) (m : List (String × Nat)) (g : Graph)
    (it : Item) (rest : List Item) : Graph :=
  match rest with
  | [] => g
  | jt :: tl =>
      add_edges_from f m
        (if related f it jt then
          match m.lookup it.item_purchased, m.lookup jt.item_purchased with
          | some a, some b => if a == b then g else g.addEdge a b
          | _, _ => g
        else g) it tl

/-- Modelled from the spec: `graph::create_edges` (§4.1, the file
`src/graph.rs` is not in the snapshot) — for every pair of distinct records
`(i, j)` with `i < j` in input order, insert a directed edge between their
nodes when the records are related under the designated comparison field. -/
def create_edges (f : Item → String) (g : Graph) (items : List Item)
    (m : List (String × Nat)) : Graph :=
  match items with
  | [] => g
  | it :: rest => create_edges f (add_edges_from f m g it rest) rest m

/-- Modelled from the spec: `graph::build_graph` (§4.1) — create the nodes
from the record sequence, then the edges, and return the graph together with
the identifier-to-node mapping. -/
def build_graph (f : Item → String) (items : List Item) :
    Graph × List (String × Nat) :=
  let gm := create_nodes Graph.empty items
  (create_edges f gm.1 items gm.2, gm.2)

/-- Modelled from the spec: the per-node score of
`centrality::calculate_degree_centrality` (§4.2, the file `src/centrality.rs`
is not in the snapshot): `degree(v) / (N - 1)` for a graph with `N ≥ 2`
nodes, and `0.0` under the explicit `N ≤ 1` guard, so no division by zero is
ever performed. -/
def node_score (g : Graph) (v : Nat) : ℚ :=
  if g.nodes.length ≤ 1 then 0
  else (g.degree v : ℚ) / ((g.nodes.length : ℚ) - 1)

/-- Modelled from the spec: `centrality::calculate_degree_centrality` (§4.2)
— one score per node, emitted in the graph's node iteration order. -/
def calculate_degree_centrality (g : Graph) : List ℚ :=
  g.nodes.map (node_score g)

/-- Modelled from the spec: the season-restricted graph of §4.2 — the full
node universe with the edge set re-derived, by the same §4.1 rule, from only
the records whose `season` equals `s`. -/
def season_graph (f : Item → String) (g : Graph) (items : List Item)
    (m : List (String × Nat)) (s : String) : Graph :=
  create_edges f { nodes := g.nodes, edges := [] }
    (items.filter (fun it => it.season == s)) m

/-- Modelled from the spec: the per-node seasonal score of §4.2 — the node's
degree under the season-restricted edge set, normalized by `N - 1` where `N`
is the total node count of the full graph (the node universe is fixed; only
the edge set varies per season), with the same `N ≤ 1` guard. -/
def seasonal_node_score (f : Item → String) (g : Graph) (items : List Item)
    (m : List (String × Nat)) (s : String) (v : Nat) : ℚ :=
  if g.nodes.length ≤ 1 then 0
  else ((season_graph f g items m s).degree v : ℚ) / ((g.nodes.length : ℚ) - 1)

/-- Modelled from the spec: one season's score vector, emitted in the full
graph's node iteration order. -/
def seasonal_scores (f : Item → String) (g : Graph) (items : List Item)
    (m : List (String × Nat)) (s : String) : List ℚ :=
  g.nodes.map (seasonal_node_score f g items m s)

/-- Modelled from the spec: `centrality::calculate_seasonal_degree_centrality`
(§4.2, the file `src/centrality.rs` is not in the snapshot) — the mapping
from season value to its ordered score sequence, over the season universe
`seasons`; a season with zero matching records is still mapped (to an
all-zero vector), not omitted and not an error (§4.2 failure conditions). -/
def calculate_seasonal_degree_centrality (f : Item → String) (g : Graph)
    (items : List Item) (m : List (String × Nat)) (seasons : List String) :
    List (String × List ℚ) :=
  seasons.map (fun s => (s, seasonal_scores f g items m s))

/-- The first record of `tests::create_test_items` in `src/main.rs`. -/
def shirt_item : Item where
  customer_id := 1
  age := 30
  gender := true
  item_purchased := "Shirt"
  category := "Clothing"
  purchase_amount := 100
  location := "Hawaii"
  size := "M"
  color := "Grey"
  season := "Spring"
  review_rating := 3
  subscription_status := true
  shipping_type := "Express"
  discount_applied := false
  promo_code_used := false
  previous_purchases := 3
  payment_method := "Venmo"
  preferred_payment_method := "Credit Card"
  frequency_of_purchases := "Every 3 Months"
  edges := []

/-- The second record of `tests::create_test_items` in `src/main.rs`. -/
def pants_item : Item where
  customer_id := 2
  age := 25
  gender := false
  item_purchased := "Pants"
  category := "Clothing"
  purchase_amount := 150
  location := "New York"
  size := "L"
  color := "Black"
  season := "Winter"
  review_rating := 4
  subscription_status := false
  shipping_type := "Standard"
  discount_applied := true
  promo_code_used := true
  previous_purchases := 5
  payment_method := "Credit Card"
  preferred_payment_method := "Credit Card"
  frequency_of_purchases := "Once a Year"
  edges := []

/-- The two records of `tests::create_test_items`. -/
def test_items : List Item :=
  [shirt_item, pants_item]

/-- A third record (an accessory, distinct category) used as a concrete input
for the seasonal scenarios. -/
def hat_item : Item :=
  { shirt_item with customer_id := 3, item_purchased := "Hat",
                    category := "Accessories", season := "Winter" }

/-- A variant of `pants_item` purchased in Spring, used as a concrete input
for the seasonal scenarios. -/
def spring_pants_item : Item :=
  { pants_item with season := "Spring" }

/-! ## Helper lemmas -/

theorem lookup_eq_none_iff (m : List (String × Nat)) (s : String) :
    m.lookup s = none ↔ s ∉ m.map Prod.fst := by
  induction m with
  | nil => simp [List.lookup]
  | cons p rest ih =>
      obtain ⟨k, v⟩ := p
      by_cases h : s = k
      · subst h
        simp [List.lookup]
      · have hb : (s == k) = false := beq_eq_false_iff_ne.mpr h
        simp [List.lookup, hb, ih, h]

theorem lookup_mem (m : List (String × Nat)) (s : String) (n : Nat)
    (h : m.lookup s = some n) : (s, n) ∈ m := by
  induction m with
  | nil => simp [List.lookup] at h
  | cons p rest ih =>
      obtain ⟨k, v⟩ := p
      by_cases hk : s = k
      · subst hk
        simp [List.lookup] at h
        simp [h]
      · have hb : (s == k) = false := beq_eq_false_iff_ne.mpr hk
        simp [List.lookup, hb] at h
        exact List.mem_cons_of_mem _ (ih h)

theorem zip_map_self {α β : Type} (l : List α) (h : α → β) :
    l.zip (l.map h) = l.map (fun v => (v, h v)) := by
  induction l with
  | nil => rfl
  | cons a t ih => simp [ih]

theorem lookup_map_pair (F : String → List ℚ) (l : List String) (s : String)
    (hs : s ∈ l) : (l.map (fun t => (t, F t))).lookup s = some (F s) := by
  induction l with
  | nil => cases hs
  | cons a t ih =>
      by_cases h : s = a
      · subst h
        simp [List.lookup]
      · have hb : (s == a) = false := beq_eq_false_iff_ne.mpr h
        have ht : s ∈ t := by
          rcases List.mem_cons.mp hs with h1 | h1
          · exact absurd h1 h
          · exact h1
        simp [List.lookup, hb, ih ht]

theorem filterMap_row_length (rows : List (Option (List String))) :
    (rows.filterMap (fun res => res.map item_from_record)).length
      = (rows.filterMap id).length := by
  induction rows with
  | nil => rfl
  | cons r t ih => cases r <;> simp [ih]

/-! ## The claims -/

/-- C4: inserting a directed edge that already exists is idempotent — the
graph after the second insertion equals the graph after the first, so the
edge set agrees in size and in membership and no multi-edge is created. -/
theorem addEdge_idempotent (g : Graph) (a b : Nat) :
    (g.addEdge a b).addEdge a b = g.addEdge a b
  ∧ ((g.addEdge a b).addEdge a b).edges.length = (g.addEdge a b).edges.length
  ∧ ∀ e, (e ∈ ((g.addEdge a b).addEdge a b).edges ↔ e ∈ (g.addEdge a b).edges) := by
  have h : (g.addEdge a b).addEdge a b = g.addEdge a b := by
    by_cases hmem : (a, b) ∈ g.edges
    · simp [Graph.addEdge, hmem]
    · simp [Graph.addEdge, hmem]
  exact ⟨h, by rw [h], fun e => by rw [h]⟩

/-- C5: the global score sequence and every per-season score sequence are
emitted in the graph's fixed node iteration order, so zipping the node list
with a score sequence pairs each node with its own score. -/
theorem scores_align_with_node_order (f : Item → String) (g : Graph)
    (items : List Item) (m : List (String × Nat)) (s : String) :
    g.nodes.zip (calculate_degree_centrality g)
      = g.nodes.map (fun v => (v, node_score g v))
  ∧ g.nodes.zip (seasonal_scores f g items m s)
      = g.nodes.map (fun v => (v, seasonal_node_score f g items m s v))
  ∧ (calculate_degree_centrality g).length = g.nodes.length
  ∧ (seasonal_scores f g items m s).length = g.nodes.length := by
  refine ⟨zip_map_self _ _, zip_map_self _ _, ?_, ?_⟩ <;>
    simp [calculate_degree_centrality, seasonal_scores]

/-- C9: the graph builder is deterministic — two runs on the same input
record sequence produce the same node set, the same edge set and the same
identifier-to-node mapping. -/
theorem build_graph_deterministic (f : Item → String) (items1 items2 : List Item)
    (h : items1 = items2) :
    (build_graph f items1).1.nodes = (build_graph f items2).1.nodes
  ∧ (build_graph f items1).1.edges = (build_graph f items2).1.edges
  ∧ (build_graph f items1).2 = (build_graph f items2).2 := by
  subst h
  exact ⟨rfl, rfl, rfl⟩

/-- Witness for C9 at the repository's own test records. -/
theorem build_graph_deterministic_witness :
    test_items = test_items
  ∧ ((build_graph byCategory test_items).1.nodes
        = (build_graph byCategory test_items).1.nodes
    ∧ (build_graph byCategory test_items).1.edges
        = (build_graph byCategory test_items).1.edges
    ∧ (build_graph byCategory test_items).2 = (build_graph byCategory test_items).2) :=
  ⟨rfl, build_graph_deterministic byCategory test_items test_items rfl⟩

/-- C10: every record returned by `read_csv` has an empty `edges` field —
the reader never populates it. -/
theorem read_csv_edges_empty (rows : List (Option (List String))) (it : Item)
    (h : it ∈ read_csv rows) : it.edges = [] := by
  have h' : it ∈ rows.filterMap (fun res => res.map item_from_record) := h
  rcases List.mem_filterMap.mp h' with ⟨res, _, hres⟩
  rcases Option.map_eq_some'.mp hres with ⟨row, _, hrow⟩
  subst hrow
  rfl

/-- A readable 19-field row, the first test record's data in CSV order. -/
def sample_row : List String :=
  ["1", "30", "true", "Shirt", "Clothing", "100", "Hawaii", "M", "Grey",
   "Spring", "3", "true", "Express", "false", "false", "3", "Venmo",
   "Credit Card", "Every 3 Months"]

/-- Witness for C10 at a concrete readable row. -/
theorem read_csv_edges_empty_witness :
    item_from_record sample_row ∈ read_csv [some sample_row]
  ∧ (item_from_record sample_row).edges = [] :=
  ⟨List.mem_filterMap.mpr ⟨some sample_row, List.mem_singleton.mpr rfl, rfl⟩,
   read_csv_edges_empty [some sample_row] (item_from_record sample_row)
     (List.mem_filterMap.mpr ⟨some sample_row, List.mem_singleton.mpr rfl, rfl⟩)⟩

/-- C8: for rows that can be read, `read_csv` surfaces no per-row parse
error — every readable row becomes exactly one record, and every column
value that fails to coerce is replaced by its default (numeric fields by
`0`, boolean fields by `false`), so the returned vector holds only
defaulted, fully-typed records. -/
theorem read_csv_no_row_error_and_defaults (rows : List (Option (List String)))
    (r : List String) :
    (read_csv rows).length = (rows.filterMap id).length
  ∧ (∀ it ∈ read_csv rows, ∃ row, some row ∈ rows ∧ it = item_from_record row)
  ∧ (parse_usize (r.getD 0 "") = none → (item_from_record r).customer_id = 0)
  ∧ (parse_usize (r.getD 1 "") = none → (item_from_record r).age = 0)
  ∧ (parse_bool (r.getD 2 "") = none → (item_from_record r).gender = false)
  ∧ (parse_usize (r.getD 5 "") = none → (item_from_record r).purchase_amount = 0)
  ∧ (parse_usize (r.getD 10 "") = none → (item_from_record r).review_rating = 0)
  ∧ (parse_bool (r.getD 11 "") = none → (item_from_record r).subscription_status = false)
  ∧ (parse_bool (r.getD 13 "") = none → (item_from_record r).discount_applied = false)
  ∧ (parse_bool (r.getD 14 "") = none → (item_from_record r).promo_code_used = false)
  ∧ (parse_usize (r.getD 15 "") = none → (item_from_record r).previous_purchases = 0) := by
  refine ⟨filterMap_row_length rows, ?_, ?_, ?_, ?_, ?_, ?_, ?_, ?_, ?_, ?_⟩
  · intro it hit
    have h' : it ∈ rows.filterMap (fun res => res.map item_from_record) := hit
    rcases List.mem_filterMap.mp h' with ⟨res, hres_mem, hres⟩
    rcases Option.map_eq_some'.mp hres with ⟨row, hrow_eq, hrow⟩
    exact ⟨row, by rw [← hrow_eq]; exact hres_mem, hrow.symm⟩
  all_goals intro h
  all_goals simp only [item_from_record, h, Option.getD_none]

/-- C1: the per-node score returned by `calculate_degree_centrality` is
`degree(node) / (N - 1)` when the graph has `N ≥ 2` nodes — with the
denominator provably nonzero, so the division is never by zero — and is
`0.0` for every node when `N ≤ 1`. -/
theorem calculate_degree_centrality_spec (g : Graph) (v : Nat)
    (hv : v ∈ g.nodes) :
    node_score g v ∈ calculate_degree_centrality g
  ∧ (g.nodes.length ≤ 1 → node_score g v = 0)
  ∧ (2 ≤ g.nodes.length →
        node_score g v = (g.degree v : ℚ) / ((g.nodes.length : ℚ) - 1)
      ∧ ((g.nodes.length : ℚ) - 1) ≠ 0) := by
  refine ⟨List.mem_map_of_mem _ hv, ?_, ?_⟩
  · intro h1
    simp [node_score, h1]
  · intro h2
    have hn : ¬ g.nodes.length ≤ 1 := by omega
    have hcast : (2 : ℚ) ≤ (g.nodes.length : ℚ) := by exact_mod_cast h2
    constructor
    · simp [node_score, hn]
    · intro hzero
      have : (g.nodes.length : ℚ) = 1 := by linarith [sub_eq_zero.mp hzero]
      linarith

/-- Witness for C1: the two-node, one-edge graph the repository's
`tests::test_centrality` builds, at its first node. -/
theorem calculate_degree_centrality_spec_witness :
    0 ∈ (Graph.mk [0, 1] [(0, 1)]).nodes
  ∧ (node_score (Graph.mk [0, 1] [(0, 1)]) 0
        ∈ calculate_degree_centrality (Graph.mk [0, 1] [(0, 1)])
    ∧ ((Graph.mk [0, 1] [(0, 1)]).nodes.length ≤ 1 →
          node_score (Graph.mk [0, 1] [(0, 1)]) 0 = 0)
    ∧ (2 ≤ (Graph.mk [0, 1] [(0, 1)]).nodes.length →
          node_score (Graph.mk [0, 1] [(0, 1)]) 0
            = ((Graph.mk [0, 1] [(0, 1)]).degree 0 : ℚ)
                / (((Graph.mk [0, 1] [(0, 1)]).nodes.length : ℚ) - 1)
        ∧ (((Graph.mk [0, 1] [(0, 1)]).nodes.length : ℚ) - 1) ≠ 0)) :=
  ⟨by decide, calculate_degree_centrality_spec (Graph.mk [0, 1] [(0, 1)]) 0 (by decide)⟩

theorem Graph.addNode_edges (g : Graph) (v : Nat) : (g.addNode v).edges = g.edges := by
  unfold Graph.addNode
  split <;> rfl

theorem Graph.mem_addEdge_edges (g : Graph) (a b : Nat) (e : Nat × Nat) :
    e ∈ (g.addEdge a b).edges ↔ e ∈ g.edges ∨ e = (a, b) := by
  by_cases hmem : (a, b) ∈ g.edges
  · simp only [Graph.addEdge, if_pos hmem]
    constructor
    · exact Or.inl
    · rintro (h | h)
      · exact h
      · rw [h]
        exact hmem
  · simp only [Graph.addEdge, if_neg hmem]
    simp

theorem Graph.addEdge_nodes_of_mem (g : Graph) (a b : Nat)
    (ha : a ∈ g.nodes) (hb : b ∈ g.nodes) : (g.addEdge a b).nodes = g.nodes := by
  by_cases hmem : (a, b) ∈ g.edges
  · simp [Graph.addEdge, hmem]
  · simp [Graph.addEdge, hmem, Graph.addNode, ha, hb]

theorem create_nodes_aux_edges (items : List Item) :
    ∀ (g : Graph) (m : List (String × Nat)),
      (create_nodes_aux items g m).1.edges = g.edges := by
  induction items with
  | nil => intro g m; rfl
  | cons it rest ih =>
      intro g m
      cases hcase : m.lookup it.item_purchased with
      | some n =>
          simp only [create_nodes_aux, hcase]
          exact ih g m
      | none =>
          simp only [create_nodes_aux, hcase]
          rw [ih]
          exact Graph.addNode_edges g m.length

theorem create_nodes_aux_spec (items : List Item) :
    ∀ (g : Graph) (m : List (String × Nat)),
      g.nodes = List.range m.length →
      (m.map Prod.fst).Nodup →
      (∀ p ∈ m, p.2 < m.length) →
      (create_nodes_aux items g m).1.nodes
          = List.range (create_nodes_aux items g m).2.length
      ∧ ((create_nodes_aux items g m).2.map Prod.fst).Nodup
      ∧ (∀ s, s ∈ (create_nodes_aux items g m).2.map Prod.fst
            ↔ s ∈ m.map Prod.fst ∨ s ∈ items.map Item.item_purchased)
      ∧ (∀ p ∈ (create_nodes_aux items g m).2,
            p.2 < (create_nodes_aux items g m).2.length) := by
  induction items with
  | nil =>
      intro g m hg hm hv
      refine ⟨hg, hm, ?_, hv⟩
      intro s
      simp [create_nodes_aux]
  | cons it rest ih =>
      intro g m hg hm hv
      cases hcase : m.lookup it.item_purchased with
      | some n =>
          simp only [create_nodes_aux, hcase]
          obtain ⟨h1, h2, h3, h4⟩ := ih g m hg hm hv
          refine ⟨h1, h2, ?_, h4⟩
          intro s
          rw [h3 s]
          have hmem : it.item_purchased ∈ m.map Prod.fst := by
            by_contra hno
            rw [← lookup_eq_none_iff] at hno
            rw [hno] at hcase
            cases hcase
          simp only [List.map_cons, List.mem_cons]
          constructor
          · rintro (h | h)
            · exact Or.inl h
            · exact Or.inr (Or.inr h)
          · rintro (h | h | h)
            · exact Or.inl h
            · exact Or.inl (h ▸ hmem)
            · exact Or.inr h
      | none =>
          simp only [create_nodes_aux, hcase]
          have hkey : it.item_purchased ∉ m.map Prod.fst :=
            (lookup_eq_none_iff m it.item_purchased).mp hcase
          have hg' : (g.addNode m.length).nodes
              = List.range (m ++ [(it.item_purchased, m.length)]).length := by
            have hnotin : m.length ∉ g.nodes := by
              rw [hg]
              simp
            simp [Graph.addNode, hnotin, hg, List.range_succ]
          have hm' : ((m ++ [(it.item_purchased, m.length)]).map Prod.fst).Nodup := by
            simp only [List.map_append, List.map_cons, List.map_nil]
            rw [List.nodup_append]
            refine ⟨hm, List.nodup_singleton _, ?_⟩
            intro s hsm
            simp only [List.mem_singleton]
            intro heq
            exact hkey (heq ▸ hsm)
          have hv' : ∀ p ∈ m ++ [(it.item_purchased, m.length)],
              p.2 < (m ++ [(it.item_purchased, m.length)]).length := by
            intro p hp
            rcases List.mem_append.mp hp with hp | hp
            · have := hv p hp
              simp only [List.length_append, List.length_cons, List.length_nil]
              omega
            · rcases List.mem_singleton.mp hp with rfl
              simp
          obtain ⟨h1, h2, h3, h4⟩ := ih (g.addNode m.length)
            (m ++ [(it.item_purchased, m.length)]) hg' hm' hv'
          refine ⟨h1, h2, ?_, h4⟩
          intro s
          rw [h3 s]
          simp only [List.map_append, List.map_cons, List.map_nil, List.mem_append,
            List.mem_singleton, List.mem_cons, List.not_mem_nil, or_false]
          constructor
          · rintro ((h | h) | h)
            · exact Or.inl h
            · exact Or.inr (Or.inl h)
            · exact Or.inr (Or.inr h)
          · rintro (h | h | h)
            · exact Or.inl (Or.inl h)
            · exact Or.inl (Or.inr h)
            · exact Or.inr h

theorem add_edges_from_nodes (f : Item → String) (m : List (String × Nat))
    (it : Item) :
    ∀ (rest : List Item) (g : Graph),
      (∀ p ∈ m, p.2 ∈ g.nodes) →
      (add_edges_from f m g it rest).nodes = g.nodes := by
  intro rest
  induction rest with
  | nil => intro g _; rfl
  | cons jt tl ih =>
      intro g hm
      show (add_edges_from f m _ it tl).nodes = g.nodes
      have hstep :
          (if related f it jt then
            match m.lookup it.item_purchased, m.lookup jt.item_purchased with
            | some a, some b => if a == b then g else g.addEdge a b
            | _, _ => g
          else g).nodes = g.nodes := by
        by_cases hrel : related f it jt
        · simp only [hrel, if_true]
          cases ha : m.lookup it.item_purchased with
          | none => rfl
          | some a =>
              cases hb : m.lookup jt.item_purchased with
              | none => rfl
              | some b =>
                  by_cases hab : a = b
                  · simp [hab]
                  · have hb' : (a == b) = false := beq_eq_false_iff_ne.mpr hab
                    simp only [hb', Bool.false_eq_true, if_false]
                    exact Graph.addEdge_nodes_of_mem g a b
                      (hm _ (lookup_mem m it.item_purchased a ha))
                      (hm _ (lookup_mem m jt.item_purchased b hb))
        · simp [hrel]
      rw [ih _ ?_, hstep]
      intro p hp
      rw [hstep]
      exact hm p hp

theorem add_edges_from_no_self (f : Item → String) (m : List (String × Nat))
    (it : Item) :
    ∀ (rest : List Item) (g : Graph),
      (∀ e ∈ g.edges, e.1 ≠ e.2) →
      ∀ e ∈ (add_edges_from f m g it rest).edges, e.1 ≠ e.2 := by
  intro rest
  induction rest with
  | nil => intro g h; exact h
  | cons jt tl ih =>
      intro g h
      apply ih
      intro e he
      by_cases hrel : related f it jt
      · simp only [hrel, if_true] at he
        cases ha : m.lookup it.item_purchased with
        | none =>
            rw [ha] at he
            exact h e he
        | some a =>
            rw [ha] at he
            cases hb : m.lookup jt.item_purchased with
            | none =>
                rw [hb] at he
                exact h e he
            | some b =>
                rw [hb] at he
                by_cases hab : a = b
                · have hb' : (a == b) = true := beq_iff_eq.mpr hab
                  simp [hb'] at he
                  exact h e he
                · have hb' : (a == b) = false := beq_eq_false_iff_ne.mpr hab
                  simp [hb'] at he
                  rcases (Graph.mem_addEdge_edges g a b e).mp he with h' | h'
                  · exact h e h'
                  · rw [h']
                    exact hab
      · simp only [hrel, if_false] at he
        exact h e he

theorem create_edges_nodes (f : Item → String) (m : List (String × Nat)) :
    ∀ (items : List Item) (g : Graph),
      (∀ p ∈ m, p.2 ∈ g.nodes) →
      (create_edges f g items m).nodes = g.nodes := by
  intro items
  induction items with
  | nil => intro g _; rfl
  | cons it rest ih =>
      intro g hm
      show (create_edges f (add_edges_from f m g it rest) rest m).nodes = g.nodes
      have hn := add_edges_from_nodes f m it rest g hm
      rw [ih (add_edges_from f m g it rest) ?_, hn]
      intro p hp
      rw [hn]
      exact hm p hp

theorem create_edges_no_self (f : Item → String) (m : List (String × Nat)) :
    ∀ (items : List Item) (g : Graph),
      (∀ e ∈ g.edges, e.1 ≠ e.2) →
      ∀ e ∈ (create_edges f g items m).edges, e.1 ≠ e.2 := by
  intro items
  induction items with
  | nil => intro g h; exact h
  | cons it rest ih =>
      intro g h
      exact ih (add_edges_from f m g it rest)
        (add_edges_from_no_self f m it rest g h)

/-- C2: the graph built from a record set has exactly one node per distinct
`item_purchased` value, and the identifier-to-node mapping has exactly one
entry per distinct item identifier (its keys are duplicate-free and are
exactly the identifiers occurring in the records). -/
theorem build_graph_node_count (f : Item → String) (items : List Item) :
    (build_graph f items).1.nodes.length
        = (items.map Item.item_purchased).dedup.length
  ∧ (build_graph f items).2.length
        = (items.map Item.item_purchased).dedup.length
  ∧ ((build_graph f items).2.map Prod.fst).Nodup
  ∧ (∀ s, s ∈ (build_graph f items).2.map Prod.fst
        ↔ s ∈ items.map Item.item_purchased) := by
  obtain ⟨h1, h2, h3, h4⟩ := create_nodes_aux_spec items Graph.empty []
    (by rfl) (by simp) (by simp)
  have hb1 : (build_graph f items).1
      = create_edges f (create_nodes Graph.empty items).1 items
          (create_nodes Graph.empty items).2 := rfl
  have hb2 : (build_graph f items).2 = (create_nodes Graph.empty items).2 := rfl
  have hkeys : ∀ s, s ∈ (create_nodes_aux items Graph.empty []).2.map Prod.fst
      ↔ s ∈ items.map Item.item_purchased := by
    intro s
    rw [h3 s]
    simp
  have hperm : List.Perm ((create_nodes_aux items Graph.empty []).2.map Prod.fst)
      ((items.map Item.item_purchased).dedup) :=
    (List.perm_ext_iff_of_nodup h2 (List.nodup_dedup _)).mpr
      (fun s => by rw [hkeys s, List.mem_dedup])
  have hmlen : (create_nodes_aux items Graph.empty []).2.length
      = (items.map Item.item_purchased).dedup.length := by
    have := hperm.length_eq
    simpa using this
  have hnodes : (build_graph f items).1.nodes
      = (create_nodes Graph.empty items).1.nodes := by
    rw [hb1]
    apply create_edges_nodes
    intro p hp
    rw [show (create_nodes Graph.empty items).1.nodes
        = List.range (create_nodes_aux items Graph.empty []).2.length from h1]
    exact List.mem_range.mpr (h4 p hp)
  refine ⟨?_, ?_, h2, ?_⟩
  · rw [hnodes, show (create_nodes Graph.empty items).1.nodes
        = List.range (create_nodes_aux items Graph.empty []).2.length from h1]
    rw [List.length_range]
    exact hmlen
  · rw [hb2]
    exact hmlen
  · intro s
    rw [hb2]
    exact hkeys s

/-- C3: the built graph contains no self-loop — every edge joins two
distinct nodes, even when distinct records map to the same item identifier. -/
theorem build_graph_no_self_loops (f : Item → String) (items : List Item)
    (a b : Nat) (h : (a, b) ∈ (build_graph f items).1.edges) : a ≠ b := by
  have hempty : ∀ e ∈ (create_nodes Graph.empty items).1.edges, e.1 ≠ e.2 := by
    rw [show (create_nodes Graph.empty items).1.edges = Graph.empty.edges from
      create_nodes_aux_edges items Graph.empty []]
    intro e he
    cases he
  have h' : (a, b) ∈ (create_edges f (create_nodes Graph.empty items).1 items
      (create_nodes Graph.empty items).2).edges := h
  exact create_edges_no_self f (create_nodes Graph.empty items).2 items
    (create_nodes Graph.empty items).1 hempty (a, b) h'

/-- Witness for C3: the builder run on the repository's two test records
creates the edge `Shirt → Pants`, whose endpoints are distinct nodes. -/
theorem build_graph_no_self_loops_witness :
    (0, 1) ∈ (build_graph byCategory test_items).1.edges ∧ 0 ≠ 1 :=
  ⟨by decide, build_graph_no_self_loops byCategory test_items 0 1 (by decide)⟩

/-- C6: a season with zero matching records is still mapped in the seasonal
output — to an all-zero score vector of length equal to the node count —
rather than being omitted or reported as an error. -/
theorem seasonal_zero_for_empty_season (f : Item → String) (g : Graph)
    (items : List Item) (m : List (String × Nat)) (seasons : List String)
    (s : String) (hs : s ∈ seasons) (h : ∀ it ∈ items, it.season ≠ s) :
    (calculate_seasonal_degree_centrality f g items m seasons).lookup s
        = some (List.replicate g.nodes.length 0)
  ∧ seasonal_scores f g items m s = List.replicate g.nodes.length 0 := by
  have hfilter : items.filter (fun it => it.season == s) = [] := by
    rw [List.filter_eq_nil_iff]
    intro it hit
    simp [h it hit]
  have hscore : ∀ v, seasonal_node_score f g items m s v = 0 := by
    intro v
    unfold seasonal_node_score season_graph
    rw [hfilter]
    show (if g.nodes.length ≤ 1 then (0 : ℚ)
      else ((Graph.mk g.nodes []).degree v : ℚ) / ((g.nodes.length : ℚ) - 1)) = 0
    simp [Graph.degree]
  have hvec : seasonal_scores f g items m s = List.replicate g.nodes.length 0 := by
    unfold seasonal_scores
    have hmap : g.nodes.map (seasonal_node_score f g items m s)
        = g.nodes.map (fun _ => (0 : ℚ)) :=
      List.map_congr_left (fun v _ => hscore v)
    rw [hmap]
    simp
  refine ⟨?_, hvec⟩
  unfold calculate_seasonal_degree_centrality
  rw [lookup_map_pair (seasonal_scores f g items m) seasons s hs, hvec]

/-- Witness for C6: the two test records cover Spring and Winter only, so
querying Summer yields the all-zero two-entry vector, still present in the
season map. -/
theorem seasonal_zero_for_empty_season_witness :
    "Summer" ∈ ["Spring", "Summer", "Fall", "Winter"]
  ∧ (∀ it ∈ test_items, it.season ≠ "Summer")
  ∧ ((calculate_seasonal_degree_centrality byCategory (Graph.mk [0, 1] [(0, 1)])
        test_items [("Shirt", 0), ("Pants", 1)]
        ["Spring", "Summer", "Fall", "Winter"]).lookup "Summer"
        = some (List.replicate (Graph.mk [0, 1] [(0, 1)]).nodes.length 0)
    ∧ seasonal_scores byCategory (Graph.mk [0, 1] [(0, 1)]) test_items
        [("Shirt", 0), ("Pants", 1)] "Summer"
        = List.replicate (Graph.mk [0, 1] [(0, 1)]).nodes.length 0) :=
  ⟨by decide, by decide,
   seasonal_zero_for_empty_season byCategory (Graph.mk [0, 1] [(0, 1)]) test_items
     [("Shirt", 0), ("Pants", 1)] ["Spring", "Summer", "Fall", "Winter"] "Summer"
     (by decide) (by decide)⟩

/-- C7: every seasonal score is normalized by `N - 1` where `N` is the total
node count of the full graph — the node universe is fixed across seasons and
only the edge set varies — and that denominator is nonzero whenever `N ≥ 2`;
the season's score vector always spans all `N` nodes. -/
theorem seasonal_normalization_total_nodes (f : Item → String) (g : Graph)
    (items : List Item) (m : List (String × Nat)) (s : String) (v : Nat)
    (h2 : 2 ≤ g.nodes.length) :
    seasonal_node_score f g items m s v
        = ((season_graph f g items m s).degree v : ℚ) / ((g.nodes.length : ℚ) - 1)
  ∧ ((g.nodes.length : ℚ) - 1) ≠ 0
  ∧ (seasonal_scores f g items m s).length = g.nodes.length := by
  have hn : ¬ g.nodes.length ≤ 1 := by omega
  refine ⟨by simp [seasonal_node_score, hn], ?_, by simp [seasonal_scores]⟩
  intro hzero
  have hcast : (2 : ℚ) ≤ (g.nodes.length : ℚ) := by exact_mod_cast h2
  have h1 : (g.nodes.length : ℚ) = 1 := by linarith [sub_eq_zero.mp hzero]
  linarith

/-- Witness for C7: three nodes in the full graph while only Shirt and Pants
occur in Spring — the Spring scores are still normalized by `3 - 1 = 2`, the
full node count less one, and the vector covers all three nodes. -/
theorem seasonal_normalization_total_nodes_witness :
    2 ≤ (Graph.mk [0, 1, 2] [(0, 1)]).nodes.length
  ∧ (seasonal_node_score byCategory (Graph.mk [0, 1, 2] [(0, 1)])
        [shirt_item, spring_pants_item, hat_item]
        [("Shirt", 0), ("Pants", 1), ("Hat", 2)] "Spring" 0
        = ((season_graph byCategory (Graph.mk [0, 1, 2] [(0, 1)])
              [shirt_item, spring_pants_item, hat_item]
              [("Shirt", 0), ("Pants", 1), ("Hat", 2)] "Spring").degree 0 : ℚ)
            / (((Graph.mk [0, 1, 2] [(0, 1)]).nodes.length : ℚ) - 1)
    ∧ (((Graph.mk [0, 1, 2] [(0, 1)]).nodes.length : ℚ) - 1) ≠ 0
    ∧ (seasonal_scores byCategory (Graph.mk [0, 1, 2] [(0, 1)])
          [shirt_item, spring_pants_item, hat_item]
          [("Shirt", 0), ("Pants", 1), ("Hat", 2)] "Spring").length
        = (Graph.mk [0, 1, 2] [(0, 1)]).nodes.length) :=
  ⟨by decide,
   seasonal_normalization_total_nodes byCategory (Graph.mk [0, 1, 2] [(0, 1)])
     [shirt_item, spring_pants_item, hat_item]
     [("Shirt", 0), ("Pants", 1), ("Hat", 2)] "Spring" 0 (by decide)⟩
